import Mathlib

/-!
Verification of the LabDabbler topology editor core: the topology data
model and its mutators (the LabBuilder component), the canvas
viewport coordinate transforms and wheel zoom (the TopologyCanvas
component), the two structural validators, the containerlab export
compiler (the TopologyExporter component), and the pointer-driven
interaction state machine of the canvas.

Numbers that are IEEE doubles in the JavaScript source are modelled as
rationals, so every arithmetic fact proved here is exact; JavaScript
object maps (string keys, insertion ordered, unique keys) are modelled
as insertion-ordered association lists.
-/

namespace LabDabbler

/-- Model-space or screen-space 2D point (source: plain objects with x and y). -/
structure Pt where
  x : ℚ
  y : ℚ
deriving DecidableEq

/-- One side of a link: a node id and an interface name
(source: objects of shape node/interface built by handleNodeMouseUp and addLink). -/
structure Endpoint where
  node : String
  interface : String
deriving DecidableEq

/-- A link of the topology. The source stores exactly two endpoints in an
array; further per-link attributes (name, type, properties, vlan_config,
advanced) are never read by any function modelled here and are omitted. -/
structure Link where
  id : String
  endpoints : Endpoint × Endpoint
deriving DecidableEq

/-- The open configuration bag seeded by addNode
(config: startup_config, env, ports, volumes; binds may be added later). -/
structure Config where
  startup_config : String
  env : List (String × String)
  ports : List String
  binds : List String
  volumes : List String
deriving DecidableEq

/-- A node of the topology (source: objects built by addNode). -/
structure Node where
  id : String
  name : String
  kind : String
  image : String
  position : Pt
  config : Config
deriving DecidableEq

/-- The topology state of LabBuilder: a name, a map from node id to node
(a JavaScript object, modelled as an insertion-ordered association list
with unique keys), and an ordered list of links. -/
structure Topology where
  name : String
  nodes : List (String × Node)
  links : List Link
deriving DecidableEq

/-- Key lookup in the node map (JavaScript property access nodes[id]). -/
def lookupNode (nodes : List (String × Node)) (nodeId : String) : Option Node :=
  (nodes.find? (fun p => p.1 == nodeId)).map Prod.snd

/-- Key assignment on a JavaScript object map, as done by the object
spread with a computed key: an existing key is overwritten in place, a
new key is appended at the end (JavaScript insertion order semantics). -/
def setKey {β : Type} (m : List (String × β)) (k : String) (v : β) :
    List (String × β) :=
  if m.any (fun p => p.1 == k) then
    m.map (fun p => if p.1 == k then (k, v) else p)
  else
    m ++ [(k, v)]

namespace TopologyCanvas

/-- getCanvasCoordinates: screen (client) position to model position.
The source reads the canvas bounding rectangle; its left and top are
explicit arguments here. -/
def getCanvasCoordinates (rectLeft rectTop : ℚ) (canvasOffset : Pt)
    (zoomLevel : ℚ) (clientX clientY : ℚ) : Pt :=
  { x := (clientX - rectLeft - canvasOffset.x) / zoomLevel,
    y := (clientY - rectTop - canvasOffset.y) / zoomLevel }

/-- getScreenCoordinates: model position to canvas-local screen position. -/
def getScreenCoordinates (canvasOffset : Pt) (zoomLevel : ℚ)
    (canvasX canvasY : ℚ) : Pt :=
  { x := canvasX * zoomLevel + canvasOffset.x,
    y := canvasY * zoomLevel + canvasOffset.y }

/-- Viewport state owned by the canvas: pan offset and zoom factor. -/
structure Viewport where
  canvasOffset : Pt
  zoomLevel : ℚ
deriving DecidableEq

/-- handleCanvasWheel: the wheel-zoom step. The multiplicative delta is
0.9 for wheel-down and 1.1 for wheel-up, the new zoom is clamped to
[0.1, 3], and the pan offset is shifted by the distance of the cursor
from the canvas center scaled by (1 - delta). -/
def handleCanvasWheel (v : Viewport) (rectLeft rectTop rectWidth rectHeight : ℚ)
    (clientX clientY deltaY : ℚ) : Viewport :=
  let delta : ℚ := if deltaY > 0 then 9/10 else 11/10
  let newZoom := max (1/10) (min 3 (v.zoomLevel * delta))
  let centerX := rectWidth / 2
  let centerY := rectHeight / 2
  let offsetX := (clientX - rectLeft - centerX) * (1 - delta)
  let offsetY := (clientY - rectTop - centerY) * (1 - delta)
  { canvasOffset := { x := v.canvasOffset.x + offsetX, y := v.canvasOffset.y + offsetY },
    zoomLevel := newZoom }

end TopologyCanvas

namespace LabBuilder

/-- Partial node fields handed to updateNode. Each field of the update
object may be present or absent (the source spreads a partial object). -/
structure NodeUpdates where
  id : Option String
  name : Option String
  kind : Option String
  image : Option String
  position : Option Pt
  config : Option Config
deriving DecidableEq

/-- The empty update object. -/
def emptyNodeUpdates : NodeUpdates := ⟨none, none, none, none, none, none⟩

/-- Object spread of a partial update over a node: present update fields
win, absent ones keep the old value. -/
def mergeNode (old : Node) (u : NodeUpdates) : Node :=
  { id := u.id.getD old.id,
    name := u.name.getD old.name,
    kind := u.kind.getD old.kind,
    image := u.image.getD old.image,
    position := u.position.getD old.position,
    config := u.config.getD old.config }

/-- Result of spreading over an undefined base, as happens in updateNode
when the looked-up node is absent: every field not provided by the update
is absent. Absent string fields are modelled as "", absent structured
fields as empty values; every read the modelled functions perform treats
the JavaScript undefined and these defaults the same way (both falsy). -/
def undefinedNode : Node :=
  { id := "", name := "", kind := "", image := "",
    position := ⟨0, 0⟩, config := ⟨"", [], [], [], []⟩ }

/-- updateNode of LabBuilder: assigns under the given key the spread of
the existing entry (or undefined) with the update fields. -/
def updateNode (t : Topology) (nodeId : String) (u : NodeUpdates) : Topology :=
  { t with
    nodes := setKey t.nodes nodeId
      (mergeNode ((lookupNode t.nodes nodeId).getD undefinedNode) u) }

/-- removeNode of LabBuilder: deletes the key from the node map and keeps
only the links in which neither endpoint references the removed id. -/
def removeNode (t : Topology) (nodeId : String) : Topology :=
  { t with
    nodes := t.nodes.filter (fun p => p.1 != nodeId),
    links := t.links.filter (fun l =>
      l.endpoints.1.node != nodeId && l.endpoints.2.node != nodeId) }

/-- Partial link fields handed to updateLink. -/
structure LinkUpdates where
  id : Option String
  endpoints : Option (Endpoint × Endpoint)
deriving DecidableEq

/-- The empty link update object. -/
def emptyLinkUpdates : LinkUpdates := ⟨none, none⟩

/-- Object spread of a partial update over a link. -/
def mergeLink (old : Link) (u : LinkUpdates) : Link :=
  { id := u.id.getD old.id, endpoints := u.endpoints.getD old.endpoints }

/-- updateLink of LabBuilder: maps over the link list, spreading the
update into the link whose id matches. -/
def updateLink (t : Topology) (linkId : String) (u : LinkUpdates) : Topology :=
  { t with links := t.links.map (fun l => if l.id == linkId then mergeLink l u else l) }

/-- removeLink of LabBuilder: keeps only the links with a different id. -/
def removeLink (t : Topology) (linkId : String) : Topology :=
  { t with links := t.links.filter (fun l => l.id != linkId) }

/-- Every link endpoint references an existing node id. -/
def noDangling (t : Topology) : Bool :=
  t.links.all (fun l =>
    (lookupNode t.nodes l.endpoints.1.node).isSome &&
    (lookupNode t.nodes l.endpoints.2.node).isSome)

end LabBuilder

/-- Witness configuration bag: the default bag seeded by addNode. -/
def sampleConfig : Config := ⟨"", [], [], [], []⟩

/-- Witness node a. -/
def nodeA : Node := ⟨"a", "r1", "linux", "alpine:latest", ⟨0, 0⟩, sampleConfig⟩

/-- Witness node b. -/
def nodeB : Node := ⟨"b", "r2", "linux", "alpine:latest", ⟨100, 0⟩, sampleConfig⟩

/-- Witness link between node a and node b. -/
def linkAB : Link := ⟨"l1", (⟨"a", "eth0"⟩, ⟨"b", "eth0"⟩)⟩

/-- Witness topology with two well-formed nodes and one link. -/
def twoNodeTopo : Topology := ⟨"custom-lab", [("a", nodeA), ("b", nodeB)], [linkAB]⟩

/-- Topology whose only link is a self-loop on node a. -/
def selfLoopTopo : Topology :=
  ⟨"custom-lab", [("a", nodeA)], [⟨"l1", (⟨"a", "eth0"⟩, ⟨"a", "eth1"⟩)⟩]⟩

/-- Topology with a single node missing all three required fields. -/
def emptyFieldsTopo : Topology :=
  ⟨"custom-lab", [("x", ⟨"x", "", "", "", ⟨0, 0⟩, sampleConfig⟩)], []⟩

/-- Display names of the nodes, in node map insertion order
(Object.values followed by mapping to the name field). -/
def nodeNames (t : Topology) : List String := t.nodes.map (fun p => p.2.name)

/-- Elements of a list that already occurred earlier in it, kept in
order: the JavaScript filter keeping the entries whose indexOf differs
from their position keeps exactly every occurrence after the first. The
accumulator carries the values already passed. -/
def dupsAux : List String → List String → List String
  | _, [] => []
  | seen, x :: xs =>
    if seen.contains x then x :: dupsAux (x :: seen) xs else dupsAux (x :: seen) xs

/-- Values occurring at least twice, one entry per extra occurrence. -/
def jsDuplicates (names : List String) : List String := dupsAux [] names

/-- Deduplication keeping first occurrences, as spreading a JavaScript
Set built from the list does. The accumulator carries the values already
emitted. -/
def jsSetDedupAux : List String → List String → List String
  | _, [] => []
  | seen, x :: xs =>
    if seen.contains x then jsSetDedupAux seen xs else x :: jsSetDedupAux (x :: seen) xs

/-- Deduplication keeping first occurrences. -/
def jsSetDedup (l : List String) : List String := jsSetDedupAux [] l

/-- The JavaScript String.prototype.trim: strips whitespace from both
ends (modelled over the character list, since the built-in String.trim
of Lean does not reduce in the kernel). -/
def jsTrim (s : String) : String :=
  String.mk (((s.data.dropWhile Char.isWhitespace).reverse.dropWhile Char.isWhitespace).reverse)

namespace TopologyExporter

/-- A structural issue pushed by validateTopology of TopologyExporter:
one constructor per push site, carrying the data the source interpolates
into the message string (see Issue.render). -/
inductive Issue
  | dupNames (names : List String)
  | missingFields (nodeId : String)
  | danglingLink (oneBasedIndex : Nat)
deriving DecidableEq

/-- The message text of an issue, mirroring the template literals. -/
def Issue.render : Issue → String
  | .dupNames names => "Duplicate node names: " ++ String.intercalate ", " names
  | .missingFields nodeId => "Node " ++ nodeId ++ " missing required fields"
  | .danglingLink i => "Link " ++ toString i ++ " references non-existent nodes"

/-- Classifier for the duplicate-names issue. -/
def Issue.isDupNames : Issue → Bool
  | .dupNames _ => true
  | _ => false

/-- Classifier for the missing-required-fields issue. -/
def Issue.isMissingFields : Issue → Bool
  | .missingFields _ => true
  | _ => false

/-- validateTopology of TopologyExporter: one duplicate-names issue when
some display name repeats; one combined missing-required-fields issue
per node with a falsy name, image or kind; one issue per link whose
endpoints do not both resolve to existing nodes. Issues are collected in
this order, never thrown. -/
def validateTopology (t : Topology) : List Issue :=
  let duplicates := jsDuplicates (nodeNames t)
  (if duplicates.isEmpty then [] else [Issue.dupNames (jsSetDedup duplicates)]) ++
  (t.nodes.filterMap (fun p =>
    if p.2.name == "" || p.2.image == "" || p.2.kind == "" then
      some (Issue.missingFields p.2.id)
    else none)) ++
  (t.links.enum.filterMap (fun q =>
    if (lookupNode t.nodes q.2.endpoints.1.node).isSome &&
       (lookupNode t.nodes q.2.endpoints.2.node).isSome then
      none
    else some (Issue.danglingLink (q.1 + 1))))

/-- The exporter disables every export action (copy, download, export to
codespaces, save and launch) exactly when the issue list is nonempty
(isValid is issues.length === 0). -/
def exportRefused (t : Topology) : Bool := !(validateTopology t).isEmpty

end TopologyExporter

namespace LabBuilder

/-- A structural issue pushed by validateTopology of LabBuilder: one
constructor per push site (see Issue.render). -/
inductive Issue
  | dupNames (names : List String)
  | isolatedNodes (names : List String)
  | noName (nodeId : String)
  | noImage (nodeName : String)
deriving DecidableEq

/-- The message text of an issue, mirroring the template literals. -/
def Issue.render : Issue → String
  | .dupNames names => "Duplicate node names found: " ++ String.intercalate ", " names
  | .isolatedNodes names =>
      "Isolated nodes (no connections): " ++ String.intercalate ", " names
  | .noName nodeId => "Node " ++ nodeId ++ " has no name"
  | .noImage nodeName => "Node " ++ nodeName ++ " has no container image specified"

/-- Classifier for the missing-name issue. -/
def Issue.isNoName : Issue → Bool
  | .noName _ => true
  | _ => false

/-- Classifier for the missing-image issue. -/
def Issue.isNoImage : Issue → Bool
  | .noImage _ => true
  | _ => false

/-- Node ids referenced by some link endpoint (the connectedNodes set). -/
def connectedNodes (t : Topology) : List String :=
  t.links.foldl (fun acc l => acc ++ [l.endpoints.1.node, l.endpoints.2.node]) []

/-- validateTopology of LabBuilder: one duplicate-names issue when some
display name repeats; one informational issue listing the names of
nodes with no incident link; per node, one issue for a blank name and
one for a blank image (the kind field is not checked here). -/
def validateTopology (t : Topology) : List Issue :=
  let duplicateNames := jsDuplicates (nodeNames t)
  let connected := connectedNodes t
  let isolated := (t.nodes.map Prod.fst).filter (fun nodeId => !connected.contains nodeId)
  (if duplicateNames.isEmpty then [] else [Issue.dupNames (jsSetDedup duplicateNames)]) ++
  (if isolated.isEmpty then [] else
    [Issue.isolatedNodes (isolated.map (fun nodeId =>
      ((lookupNode t.nodes nodeId).getD undefinedNode).name))]) ++
  (t.nodes.map (fun p =>
    (if p.2.name == "" || jsTrim p.2.name == "" then [Issue.noName p.1] else []) ++
    (if p.2.image == "" || jsTrim p.2.image == "" then [Issue.noImage p.2.name] else []))).flatten

end LabBuilder

/-- Topology with two nodes that share the display name r1. -/
def r1DupTopo : Topology :=
  ⟨"custom-lab", [("a", nodeA), ("b", ⟨"b", "r1", "linux", "alpine:latest", ⟨100, 0⟩, sampleConfig⟩)],
    [linkAB]⟩

namespace TopologyExporter

/-- The per-node mapping value emitted by generateContainerlabYAML:
kind and image always, the optional entries only when truthy or
nonempty. -/
structure NodeYaml where
  kind : String
  image : String
  startup_config : Option String
  env : Option (List (String × String))
  ports : Option (List String)
  binds : Option (List String)
  volumes : Option (List String)
deriving DecidableEq

/-- Builds the nodeConfig object for one node. -/
def mkNodeYaml (n : Node) : NodeYaml :=
  { kind := n.kind,
    image := n.image,
    startup_config :=
      if n.config.startup_config != "" then some n.config.startup_config else none,
    env := if !n.config.env.isEmpty then some n.config.env else none,
    ports := if !n.config.ports.isEmpty then some n.config.ports else none,
    binds := if !n.config.binds.isEmpty then some n.config.binds else none,
    volumes := if !n.config.volumes.isEmpty then some n.config.volumes else none }

/-- One emitted link: the endpoints array of nodeName:interfaceName strings. -/
structure LinkYaml where
  endpoints : List String
deriving DecidableEq

/-- The complete labConfig object built by generateContainerlabYAML:
name, the topology block, and the optional prefix and mgmt settings. -/
structure LabConfig where
  name : String
  nodes : List (String × NodeYaml)
  links : List LinkYaml
  prefixOpt : Option String
  mgmt : Option (String × String)
deriving DecidableEq

/-- The nodes mapping, keyed by display name, built by repeated object
key assignment over the nodes in map order. -/
def nodesYaml (t : Topology) : List (String × NodeYaml) :=
  t.nodes.foldl (fun m p => setKey m p.2.name (mkNodeYaml p.2)) []

/-- The emitted link list: every stored link whose two endpoints resolve
to existing nodes, in stored order, as resolved name:interface pairs; a
link with a missing endpoint is skipped. -/
def linksYaml (t : Topology) : List LinkYaml :=
  t.links.filterMap (fun l =>
    match lookupNode t.nodes l.endpoints.1.node, lookupNode t.nodes l.endpoints.2.node with
    | some n1, some n2 =>
      some ⟨[n1.name ++ ":" ++ l.endpoints.1.interface,
             n2.name ++ ":" ++ l.endpoints.2.interface]⟩
    | _, _ => none)

/-- generateContainerlabYAML of TopologyExporter, as a function of the
topology and the three export settings read from component state. -/
def generateContainerlabYAML (t : Topology) (containerPrefix : String)
    (includeManagement : Bool) (managementNetwork : String) : LabConfig :=
  { name := t.name,
    nodes := nodesYaml t,
    links := linksYaml t,
    prefixOpt := if containerPrefix != "" then some containerPrefix else none,
    mgmt := if includeManagement then some (managementNetwork, "172.20.20.0/24") else none }

/-- Generic JSON-like value over which the simple YAML generator of the
source runs (null, string, number, boolean, array, object). -/
inductive YVal
  | vNull
  | vStr (s : String)
  | vNum (q : ℚ)
  | vBool (b : Bool)
  | vArr (items : List YVal)
  | vObj (fields : List (String × YVal))

/-- Indentation prefix: two spaces per level. -/
def yamlSpaces (indent : Nat) : String := String.join (List.replicate indent "  ")

/-- Rendering of a non-object array item through the template literal
(String interpolation). Arrays never contain arrays in any document the
exporter builds, so the vArr case is unreachable here (the source would
route an array item through its object branch). -/
def YVal.raw : YVal → String
  | .vNull => "null"
  | .vStr s => s
  | .vNum q => toString q
  | .vBool b => toString b
  | .vArr _ => ""
  | .vObj _ => ""

mutual

/-- Lines for one key/value entry of an object (processObject body). -/
def yamlEntryLines (indent : Nat) (key : String) : YVal → List String
  | .vNull => [yamlSpaces indent ++ key ++ ": null"]
  | .vStr s => [yamlSpaces indent ++ key ++ ": \"" ++ s ++ "\""]
  | .vNum q => [yamlSpaces indent ++ key ++ ": " ++ toString q]
  | .vBool b => [yamlSpaces indent ++ key ++ ": " ++ toString b]
  | .vArr [] => [yamlSpaces indent ++ key ++ ": []"]
  | .vArr (i :: is) => (yamlSpaces indent ++ key ++ ":") :: yamlItemLines indent (i :: is)
  | .vObj fields => (yamlSpaces indent ++ key ++ ":") :: yamlObjLines (indent + 1) fields

/-- Lines for the items of a nonempty array. -/
def yamlItemLines (indent : Nat) : List YVal → List String
  | [] => []
  | .vObj fields :: rest =>
    ((yamlSpaces indent ++ "  -") :: yamlObjLines (indent + 2) fields) ++
      yamlItemLines indent rest
  | item :: rest => (yamlSpaces indent ++ "  - " ++ item.raw) :: yamlItemLines indent rest

/-- Lines for all entries of an object (processObject loop). -/
def yamlObjLines (indent : Nat) : List (String × YVal) → List String
  | [] => []
  | (k, v) :: rest => yamlEntryLines indent k v ++ yamlObjLines indent rest

end

/-- Optional object entry. -/
def optField (k : String) : Option YVal → List (String × YVal)
  | some v => [(k, v)]
  | none => []

/-- The JSON-like value of one emitted node mapping entry, with the keys
in the insertion order of generateContainerlabYAML. -/
def nodeYamlVal (n : NodeYaml) : YVal :=
  .vObj ([("kind", .vStr n.kind), ("image", .vStr n.image)] ++
    optField "startup_config" (n.startup_config.map .vStr) ++
    optField "env" (n.env.map (fun e => .vObj (e.map (fun kv => (kv.1, .vStr kv.2))))) ++
    optField "ports" (n.ports.map (fun l => .vArr (l.map .vStr))) ++
    optField "binds" (n.binds.map (fun l => .vArr (l.map .vStr))) ++
    optField "volumes" (n.volumes.map (fun l => .vArr (l.map .vStr))))

/-- The JSON-like value of the whole labConfig object, with the keys in
the insertion order of generateContainerlabYAML. -/
def labConfigVal (c : LabConfig) : YVal :=
  .vObj ([("name", .vStr c.name),
    ("topology", .vObj
      [("nodes", .vObj (c.nodes.map (fun p => (p.1, nodeYamlVal p.2)))),
       ("links", .vArr (c.links.map (fun l =>
         .vObj [("endpoints", .vArr (l.endpoints.map .vStr))])))])] ++
    optField "prefix" (c.prefixOpt.map .vStr) ++
    optField "mgmt" (c.mgmt.map (fun m =>
      .vObj [("network", .vStr m.1), ("ipv4_subnet", .vStr m.2)])))

/-- generateYAMLString: the joined lines of processObject of the value
(the source is only ever handed objects). -/
def generateYAMLString (v : YVal) : String :=
  String.intercalate "\n"
    (match v with
     | .vObj fields => yamlObjLines 0 fields
     | _ => [])

/-- The full containerlab export text for a topology and settings. -/
def exportText (t : Topology) (containerPrefix : String)
    (includeManagement : Bool) (managementNetwork : String) : String :=
  generateYAMLString (labConfigVal (generateContainerlabYAML t containerPrefix
    includeManagement managementNetwork))

end TopologyExporter

/-- Injective renaming of node ids, applied to the node map keys, the id
field stored inside each node, and the link endpoints. -/
def renameNode (f : String → String) (n : Node) : Node := { n with id := f n.id }

/-- Renames the endpoint node references of a link. -/
def renameLink (f : String → String) (l : Link) : Link :=
  { l with endpoints :=
    (⟨f l.endpoints.1.node, l.endpoints.1.interface⟩,
     ⟨f l.endpoints.2.node, l.endpoints.2.interface⟩) }

/-- Renames every node id occurring in a topology. -/
def renameTopology (f : String → String) (t : Topology) : Topology :=
  { t with
    nodes := t.nodes.map (fun p => (f p.1, renameNode f p.2)),
    links := t.links.map (renameLink f) }

namespace TopologyCanvas

/-- The dragging state: dragged node id plus the last client position
(handleNodeMouseDown stores clientX/clientY, each move rebases them). -/
structure DragState where
  nodeId : String
  startX : ℚ
  startY : ℚ
deriving DecidableEq

/-- The linking state stored by shift-click on a node. -/
structure LinkState where
  sourceNode : String
  sourceInterface : String
deriving DecidableEq

/-- A context menu target (node or link). -/
inductive CtxTarget
  | node (nodeId : String)
  | link (linkId : String)
deriving DecidableEq

/-- The open context menu: target and client position. -/
structure CtxMenu where
  target : CtxTarget
  x : ℚ
  y : ℚ
deriving DecidableEq

/-- The interaction state of TopologyCanvas: the three gesture states
(isPanning, dragging, linking) with their auxiliary data, the context
menu, the selection, and the viewport. The topology itself lives in the
parent component and is mutated only through callbacks (onNodeMove,
onLinkCreate, onNodeDelete), none of which touches these fields. -/
structure CanvasState where
  isPanning : Bool
  panStart : Pt
  dragging : Option DragState
  linking : Option LinkState
  linkPreview : Option Pt
  contextMenu : Option CtxMenu
  selectedNode : Option String
  canvasOffset : Pt
  zoomLevel : ℚ
deriving DecidableEq

/-- The initial interaction state of a fresh canvas. -/
def initialCanvasState : CanvasState :=
  { isPanning := false, panStart := ⟨0, 0⟩, dragging := none, linking := none,
    linkPreview := none, contextMenu := none, selectedNode := none,
    canvasOffset := ⟨0, 0⟩, zoomLevel := 1 }

/-- A context menu action chosen by the user. -/
inductive CtxAction
  | delete
  | duplicate
  | configure
deriving DecidableEq

/-- One handler invocation of TopologyCanvas. Each constructor carries
the data the handler reads from the event and from its environment: the
mouse button, the modifier key, client coordinates, whether the
mouse-down target was inside a node element, the canvas bounding
rectangle, and (for a move while dragging) whether the dragged node
still exists in the topology of the parent. -/
inductive CanvasEvent
  | nodeMouseDown (nodeId : String) (button : Nat) (shiftKey : Bool) (clientX clientY : ℚ)
  | nodeMouseUp (nodeId : String)
  | canvasMouseDown (button : Nat) (targetInNode : Bool) (clientX clientY : ℚ)
  | canvasMouseMove (clientX clientY : ℚ) (draggedNodeExists : Bool)
      (rectLeft rectTop : ℚ)
  | canvasMouseUp
  | canvasWheel (clientX clientY deltaY rectLeft rectTop rectWidth rectHeight : ℚ)
  | keyDown (key : String)
  | contextMenuAction (action : CtxAction) (nodeId : String)
deriving DecidableEq

/-- The transition function of the interaction state machine: the effect
of one handler invocation on the canvas state. Topology mutations are
issued through parent callbacks and do not change any of these fields;
setShowNodeConfig and similar parent UI flags are outside the model. -/
def step (s : CanvasState) : CanvasEvent → CanvasState
  | .nodeMouseDown nodeId button shiftKey clientX clientY =>
    if button == 0 then
      if shiftKey then
        { s with linking := some ⟨nodeId, "eth0"⟩ }
      else
        { s with selectedNode := some nodeId,
                 dragging := some ⟨nodeId, clientX, clientY⟩ }
    else if button == 2 then
      { s with contextMenu := some ⟨.node nodeId, clientX, clientY⟩ }
    else s
  | .nodeMouseUp nodeId =>
    match s.linking with
    | some lk =>
      if lk.sourceNode != nodeId then
        { s with linking := none }
      else s
    | none => s
  | .canvasMouseDown button targetInNode clientX clientY =>
    if button == 0 && !targetInNode then
      { s with isPanning := true,
               panStart := ⟨clientX - s.canvasOffset.x, clientY - s.canvasOffset.y⟩,
               selectedNode := none,
               contextMenu := none }
    else s
  | .canvasMouseMove clientX clientY draggedNodeExists rectLeft rectTop =>
    if s.isPanning then
      { s with canvasOffset := ⟨clientX - s.panStart.x, clientY - s.panStart.y⟩ }
    else
      match s.dragging with
      | some d =>
        if draggedNodeExists then
          { s with dragging := some ⟨d.nodeId, clientX, clientY⟩ }
        else s
      | none =>
        match s.linking with
        | some _ =>
          { s with linkPreview := some (getCanvasCoordinates rectLeft rectTop
              s.canvasOffset s.zoomLevel clientX clientY) }
        | none => s
  | .canvasMouseUp =>
    { s with isPanning := false,
             dragging := none,
             linking := if s.linking.isSome && s.linkPreview.isNone then none else s.linking,
             linkPreview := none }
  | .canvasWheel clientX clientY deltaY rectLeft rectTop rectWidth rectHeight =>
    let v := handleCanvasWheel ⟨s.canvasOffset, s.zoomLevel⟩ rectLeft rectTop
      rectWidth rectHeight clientX clientY deltaY
    { s with canvasOffset := v.canvasOffset, zoomLevel := v.zoomLevel }
  | .keyDown key =>
    if key == "Delete" && s.selectedNode.isSome then s
    else if key == "Escape" then
      { s with linking := none, contextMenu := none, selectedNode := none }
    else s
  | .contextMenuAction action nodeId =>
    match action with
    | .configure => { s with selectedNode := some nodeId, contextMenu := none }
    | _ => { s with contextMenu := none }

/-- Runs a sequence of handler invocations from a starting state. -/
def run (s : CanvasState) (events : List CanvasEvent) : CanvasState :=
  events.foldl step s

/-- Number of gesture states simultaneously active. -/
def gesturesActive (s : CanvasState) : Nat :=
  (if s.isPanning then 1 else 0) +
  (if s.dragging.isSome then 1 else 0) +
  (if s.linking.isSome then 1 else 0)

/-- Number of gesture states active in the second state that were not
active in the first. -/
def gesturesStarted (s s2 : CanvasState) : Nat :=
  (if !s.isPanning && s2.isPanning then 1 else 0) +
  (if s.dragging.isNone && s2.dragging.isSome then 1 else 0) +
  (if s.linking.isNone && s2.linking.isSome then 1 else 0)

/-- The event trace in which a link gesture survives a mouse-up (the
preview point is set, so handleCanvasMouseUp keeps the linking state)
and a subsequent mouse-down on empty canvas starts panning: shift-click
node a, move over the canvas, release, press again on empty canvas. -/
def overlapTrace : List CanvasEvent :=
  [.nodeMouseDown "a" 0 true 40 40,
   .canvasMouseMove 60 60 false 0 0,
   .canvasMouseUp,
   .canvasMouseDown 0 false 80 80]

end TopologyCanvas

/-- Looking up the removed key in a key-filtered node map yields nothing. -/
theorem lookupNode_filter_self (nodes : List (String × Node)) (nodeId : String) :
    lookupNode (nodes.filter (fun p => p.1 != nodeId)) nodeId = none := by
  unfold lookupNode
  rw [Option.map_eq_none', List.find?_eq_none]
  intro p hp
  have := (List.mem_filter.mp hp).2
  simp only [bne_iff_ne, ne_eq] at this
  simp [this]

/-- Looking up a different key in a key-filtered node map is unchanged. -/
theorem lookupNode_filter_ne (nodes : List (String × Node)) (nodeId k : String)
    (h : k ≠ nodeId) :
    lookupNode (nodes.filter (fun p => p.1 != nodeId)) k = lookupNode nodes k := by
  unfold lookupNode
  congr 1
  induction nodes with
  | nil => rfl
  | cons p rest ih =>
    have hnk : nodeId ≠ k := fun hh => h hh.symm
    by_cases hp : p.1 = nodeId
    · have hk : p.1 ≠ k := fun hh => h (hh.symm.trans hp)
      simp [List.filter_cons, List.find?_cons, hp, hk, hnk, ih]
    · by_cases hpk : p.1 = k
      · simp [List.filter_cons, List.find?_cons, hp, hpk, h, ih]
      · simp [List.filter_cons, List.find?_cons, hp, hpk, h, ih]

open LabBuilder in
/-- C3: removeNode removes the node and every incident link: afterwards
the node map no longer contains the id and no remaining link references
it; moreover if no link referenced a missing node id before the deletion,
none does afterwards. -/
theorem removeNode_cascades (t : Topology) (nodeId : String) :
    (lookupNode (removeNode t nodeId).nodes nodeId = none ∧
      ∀ l ∈ (removeNode t nodeId).links,
        l.endpoints.1.node ≠ nodeId ∧ l.endpoints.2.node ≠ nodeId) ∧
    (noDangling t = true → noDangling (removeNode t nodeId) = true) := by
  refine ⟨⟨lookupNode_filter_self t.nodes nodeId, ?_⟩, ?_⟩
  · intro l hl
    have := (List.mem_filter.mp hl).2
    simpa using this
  · intro hnd
    rw [noDangling, List.all_eq_true]
    intro l hl
    have hmem : l ∈ t.links := (List.mem_filter.mp hl).1
    have hcond := (List.mem_filter.mp hl).2
    simp only [Bool.and_eq_true, bne_iff_ne, ne_eq] at hcond
    have hold := (List.all_eq_true.mp hnd) l hmem
    simp only [Bool.and_eq_true] at hold
    have h1 := lookupNode_filter_ne t.nodes nodeId l.endpoints.1.node hcond.1
    have h2 := lookupNode_filter_ne t.nodes nodeId l.endpoints.2.node hcond.2
    simp only [removeNode, Bool.and_eq_true, h1, h2]
    exact hold

open LabBuilder in
/-- Witness for C3: removing node a from the two-node topology, with the
no-dangling hypothesis discharged concretely. -/
theorem removeNode_cascades_witness :
    LabBuilder.noDangling twoNodeTopo = true ∧
    (lookupNode (LabBuilder.removeNode twoNodeTopo "a").nodes "a" = none ∧
      ∀ l ∈ (LabBuilder.removeNode twoNodeTopo "a").links,
        l.endpoints.1.node ≠ "a" ∧ l.endpoints.2.node ≠ "a") ∧
    LabBuilder.noDangling (LabBuilder.removeNode twoNodeTopo "a") = true :=
  ⟨by decide, (removeNode_cascades twoNodeTopo "a").1,
    (removeNode_cascades twoNodeTopo "a").2 (by decide)⟩

open LabBuilder in
/-- C4 counterexample: updateNode on an id absent from the topology is
not a no-op. With the empty update object it appends a fresh node entry
under the ghost id, so the topology changes. -/
theorem updateNode_missing_id_not_noop :
    lookupNode twoNodeTopo.nodes "ghost" = none ∧
    (∀ l ∈ twoNodeTopo.links, l.id ≠ "ghost") ∧
    LabBuilder.updateNode twoNodeTopo "ghost" LabBuilder.emptyNodeUpdates ≠ twoNodeTopo := by
  decide

open LabBuilder in
/-- C4 amended: on an id not present in the topology, updateLink and
removeLink are exact no-ops; removeNode leaves the node map unchanged
and is an exact no-op when no link endpoint references the id (it does
remove dangling links that reference the absent id); updateNode is NOT a
no-op: it appends a new node entry under the absent id built from the
update fields spread over an undefined base. -/
theorem missing_id_mutations (t : Topology) (i : String)
    (u : NodeUpdates) (lu : LinkUpdates)
    (hn : lookupNode t.nodes i = none)
    (hl : ∀ l ∈ t.links, l.id ≠ i) :
    updateLink t i lu = t ∧
    removeLink t i = t ∧
    (removeNode t i).nodes = t.nodes ∧
    ((∀ l ∈ t.links, l.endpoints.1.node ≠ i ∧ l.endpoints.2.node ≠ i) →
      removeNode t i = t) ∧
    (updateNode t i u).nodes = t.nodes ++ [(i, mergeNode undefinedNode u)] := by
  have hkeys : ∀ p ∈ t.nodes, (p.1 == i) = false := by
    intro p hp
    have := List.find?_eq_none.mp (by
      rwa [lookupNode, Option.map_eq_none'] at hn) p hp
    simpa using this
  have hnodes : t.nodes.filter (fun p => p.1 != i) = t.nodes := by
    rw [List.filter_eq_self]
    intro p hp
    simp [bne, hkeys p hp]
  refine ⟨?_, ?_, ?_, ?_, ?_⟩
  · cases t with
    | mk nm ns ls =>
      simp only [updateLink, Topology.mk.injEq, true_and]
      calc ls.map (fun l => if l.id == i then mergeLink l lu else l)
          = ls.map (fun l => l) := by
            apply List.map_congr_left
            intro l hml
            have : (l.id == i) = false := by simpa using hl l hml
            simp [this]
        _ = ls := List.map_id ls
  · cases t with
    | mk nm ns ls =>
      simp only [removeLink, Topology.mk.injEq, true_and]
      rw [List.filter_eq_self]
      intro l hml
      have : l.id ≠ i := hl l hml
      simp [bne, this]
  · simpa [removeNode] using hnodes
  · intro hep
    cases t with
    | mk nm ns ls =>
      simp only [removeNode, Topology.mk.injEq, true_and]
      constructor
      · exact hnodes
      · rw [List.filter_eq_self]
        intro l hml
        have := hep l hml
        simp [this.1, this.2]
  · have hany : t.nodes.any (fun p => p.1 == i) = false := by
      rw [List.any_eq_false]
      intro p hp
      simp [hkeys p hp]
    simp [updateNode, setKey, hany, hn]

open LabBuilder in
/-- Witness for C4 (amended) at the two-node topology and the ghost id,
with both hypotheses discharged concretely. -/
theorem missing_id_mutations_witness :
    lookupNode twoNodeTopo.nodes "ghost" = none ∧
    LabBuilder.updateLink twoNodeTopo "ghost" LabBuilder.emptyLinkUpdates = twoNodeTopo ∧
    LabBuilder.removeLink twoNodeTopo "ghost" = twoNodeTopo ∧
    LabBuilder.removeNode twoNodeTopo "ghost" = twoNodeTopo ∧
    (LabBuilder.updateNode twoNodeTopo "ghost" LabBuilder.emptyNodeUpdates).nodes =
      twoNodeTopo.nodes ++ [("ghost", LabBuilder.mergeNode LabBuilder.undefinedNode
        LabBuilder.emptyNodeUpdates)] :=
  ⟨by decide,
    (missing_id_mutations twoNodeTopo "ghost" emptyNodeUpdates emptyLinkUpdates
      (by decide) (by decide)).1,
    (missing_id_mutations twoNodeTopo "ghost" emptyNodeUpdates emptyLinkUpdates
      (by decide) (by decide)).2.1,
    (missing_id_mutations twoNodeTopo "ghost" emptyNodeUpdates emptyLinkUpdates
      (by decide) (by decide)).2.2.2.1 (by decide),
    (missing_id_mutations twoNodeTopo "ghost" emptyNodeUpdates emptyLinkUpdates
      (by decide) (by decide)).2.2.2.2⟩

/-- Membership in dupsAux: an element occurs among the emitted
duplicates exactly when it was already seen and occurs in the rest, or
occurs at least twice in the rest. -/
theorem mem_dupsAux (a : String) :
    ∀ (seen l : List String), a ∈ dupsAux seen l ↔ ((a ∈ seen ∧ a ∈ l) ∨ 2 ≤ l.count a) := by
  intro seen l
  induction l generalizing seen with
  | nil => simp [dupsAux]
  | cons x xs ih =>
    by_cases hax : a = x
    · subst hax
      by_cases hx : a ∈ seen
      · have hc : seen.contains a = true := by simpa using hx
        simp [dupsAux, hc, hx]
      · have hc : seen.contains a = false := by simpa using hx
        have hmem : a ∈ xs ↔ 0 < xs.count a := List.count_pos_iff.symm
        simp only [dupsAux, hc, Bool.false_eq_true, if_false, ih, List.mem_cons,
          true_or, true_and, List.count_cons_self, hx, false_and, false_or]
        rw [hmem]
        omega
    · by_cases hx : x ∈ seen
      · have hc : seen.contains x = true := by simpa using hx
        simp [dupsAux, hc, hx, ih, hax, List.count_cons, List.mem_cons]
      · have hc : seen.contains x = false := by simpa using hx
        simp [dupsAux, hc, hx, ih, hax, List.count_cons, List.mem_cons]

/-- Membership in jsDuplicates is occurring at least twice. -/
theorem mem_jsDuplicates (a : String) (l : List String) :
    a ∈ jsDuplicates l ↔ 2 ≤ l.count a := by
  simpa [jsDuplicates] using mem_dupsAux a [] l

/-- Membership in jsSetDedupAux: in the rest and not yet emitted. -/
theorem mem_jsSetDedupAux (a : String) :
    ∀ (seen l : List String), a ∈ jsSetDedupAux seen l ↔ (a ∈ l ∧ a ∉ seen) := by
  intro seen l
  induction l generalizing seen with
  | nil => simp [jsSetDedupAux]
  | cons x xs ih =>
    by_cases hx : x ∈ seen
    · have hc : seen.contains x = true := by simpa using hx
      by_cases hax : a = x
      · subst hax
        simp [jsSetDedupAux, hc, hx, ih]
      · simp [jsSetDedupAux, hc, hx, ih, hax, List.mem_cons]
    · have hc : seen.contains x = false := by simpa using hx
      by_cases hax : a = x
      · subst hax
        simp [jsSetDedupAux, hc, hx, ih, List.mem_cons]
      · simp [jsSetDedupAux, hc, hx, ih, hax, List.mem_cons]

/-- jsSetDedupAux never emits an element twice. -/
theorem nodup_jsSetDedupAux :
    ∀ (seen l : List String), (jsSetDedupAux seen l).Nodup := by
  intro seen l
  induction l generalizing seen with
  | nil => simp [jsSetDedupAux]
  | cons x xs ih =>
    by_cases hx : x ∈ seen
    · have hc : seen.contains x = true := by simpa using hx
      simpa [jsSetDedupAux, hc, hx] using ih seen
    · have hc : seen.contains x = false := by simpa using hx
      have hnotin : x ∉ jsSetDedupAux (x :: seen) xs := by
        intro hmem
        exact ((mem_jsSetDedupAux x (x :: seen) xs).mp hmem).2 (List.mem_cons_self x seen)
      simpa [jsSetDedupAux, hc, hx, List.nodup_cons, hnotin] using ih (x :: seen)

/-- Membership is preserved by jsSetDedup. -/
theorem mem_jsSetDedup (a : String) (l : List String) : a ∈ jsSetDedup l ↔ a ∈ l := by
  simpa [jsSetDedup] using mem_jsSetDedupAux a [] l

/-- jsSetDedup has no duplicate entries. -/
theorem nodup_jsSetDedup (l : List String) : (jsSetDedup l).Nodup :=
  nodup_jsSetDedupAux [] l

/-- filterMap with a guarded some is map after filter. -/
theorem filterMap_guard_eq_map_filter {α β : Type} (c : α → Bool) (f : α → β) :
    ∀ l : List α,
      l.filterMap (fun a => if c a then some (f a) else none) = (l.filter c).map f := by
  intro l
  induction l with
  | nil => rfl
  | cons x xs ih =>
    by_cases hx : c x = true <;>
      simp [List.filterMap_cons, List.filter_cons, hx, ih]

/-- filterMap equals map when the function is pointwise some on members. -/
theorem filterMap_congr_some {α β : Type} (f : α → Option β) (g : α → β) :
    ∀ l : List α, (∀ a ∈ l, f a = some (g a)) → l.filterMap f = l.map g := by
  intro l
  induction l with
  | nil => intro _; rfl
  | cons x xs ih =>
    intro h
    rw [List.filterMap_cons, h x (List.mem_cons_self x xs), List.map_cons,
      ih (fun a ha => h a (List.mem_cons_of_mem x ha))]

/-- filterMap whose function is some exactly on a boolean condition is
map after filter. -/
theorem filterMap_eq_filter_map_of {α β : Type} (f : α → Option β) (c : α → Bool) (g : α → β)
    (h1 : ∀ a, c a = true → f a = some (g a)) (h2 : ∀ a, c a = false → f a = none) :
    ∀ l : List α, l.filterMap f = (l.filter c).map g := by
  intro l
  induction l with
  | nil => rfl
  | cons x xs ih =>
    cases hx : c x with
    | true => simp [List.filterMap_cons, List.filter_cons, hx, h1 x hx, ih]
    | false => simp [List.filterMap_cons, List.filter_cons, hx, h2 x hx, ih]

/-- Every pair in enumFrom has its element in the list. -/
theorem snd_mem_of_mem_enumFrom {α : Type} :
    ∀ (l : List α) (n : Nat) (q : Nat × α), q ∈ l.enumFrom n → q.2 ∈ l := by
  intro l
  induction l with
  | nil => intro n q h; cases h
  | cons x xs ih =>
    intro n q h
    have h2 : q ∈ (n, x) :: xs.enumFrom (n + 1) := h
    rcases List.mem_cons.mp h2 with rfl | h3
    · exact List.mem_cons_self x xs
    · exact List.mem_cons_of_mem x (ih (n + 1) q h3)

/-- Every list element appears in enumFrom with some index. -/
theorem exists_mem_enumFrom {α : Type} (a : α) :
    ∀ (l : List α) (n : Nat), a ∈ l → ∃ i, (i, a) ∈ l.enumFrom n := by
  intro l
  induction l with
  | nil => intro n h; cases h
  | cons x xs ih =>
    intro n h
    rcases List.mem_cons.mp h with rfl | h2
    · exact ⟨n, List.mem_cons_self (n, a) (xs.enumFrom (n + 1))⟩
    · obtain ⟨i, hi⟩ := ih (n + 1) h2
      exact ⟨i, List.mem_cons_of_mem (n, x) hi⟩

/-- C5 counterexample: a topology whose only link is a self-loop on an
otherwise well-formed node passes both validators with zero issues, so
no self-loop issue is produced and the export actions stay enabled. -/
theorem self_loop_passes_validation :
    (∃ l ∈ selfLoopTopo.links, l.endpoints.1.node = l.endpoints.2.node) ∧
    TopologyExporter.validateTopology selfLoopTopo = [] ∧
    TopologyExporter.exportRefused selfLoopTopo = false ∧
    LabBuilder.validateTopology selfLoopTopo = [] := by
  decide

/-- C5 amended: the exporter validator checks duplicate names, missing
required fields and unresolvable link endpoints only; a topology passing
those three checks validates to the empty issue list and export is
permitted, with no hypothesis excluding self-loop links — a link whose
two endpoints reference the same existing node id raises no issue. -/
theorem validate_allows_self_loops (t : Topology)
    (hdup : jsDuplicates (nodeNames t) = [])
    (hfields : ∀ p ∈ t.nodes, ¬p.2.name = "" ∧ ¬p.2.image = "" ∧ ¬p.2.kind = "")
    (hresolve : ∀ l ∈ t.links,
      (lookupNode t.nodes l.endpoints.1.node).isSome = true ∧
      (lookupNode t.nodes l.endpoints.2.node).isSome = true) :
    TopologyExporter.validateTopology t = [] ∧
    TopologyExporter.exportRefused t = false := by
  have hv : TopologyExporter.validateTopology t = [] := by
    unfold TopologyExporter.validateTopology
    rw [hdup]
    simp only [List.isEmpty_nil, if_true, List.nil_append, List.append_eq_nil]
    constructor
    · rw [List.filterMap_eq_nil_iff]
      intro p hp
      obtain ⟨h1, h2, h3⟩ := hfields p hp
      simp [h1, h2, h3]
    · rw [List.filterMap_eq_nil_iff]
      intro q hq
      have hr := hresolve q.2 (snd_mem_of_mem_enumFrom t.links 0 q hq)
      simp [hr.1, hr.2]
  exact ⟨hv, by simp [TopologyExporter.exportRefused, hv]⟩

/-- Witness for C5 (amended) at the self-loop topology itself: its
hypotheses hold there, validation returns no issue and export stays
enabled even though the link is a self-loop. -/
theorem validate_allows_self_loops_witness :
    jsDuplicates (nodeNames selfLoopTopo) = [] ∧
    TopologyExporter.validateTopology selfLoopTopo = [] ∧
    TopologyExporter.exportRefused selfLoopTopo = false :=
  ⟨by decide,
    (validate_allows_self_loops selfLoopTopo (by decide) (by decide) (by decide)).1,
    (validate_allows_self_loops selfLoopTopo (by decide) (by decide) (by decide)).2⟩

/-- C6 counterexample: a node with empty name, empty image and empty
kind yields exactly one combined issue from the exporter validator (not
three); the LabBuilder validator yields one name issue and one image
issue and none for the kind (plus the unrelated isolated-node warning). -/
theorem missing_fields_yield_single_issue :
    TopologyExporter.validateTopology emptyFieldsTopo =
      [TopologyExporter.Issue.missingFields "x"] ∧
    (TopologyExporter.validateTopology emptyFieldsTopo).length = 1 ∧
    LabBuilder.validateTopology emptyFieldsTopo =
      [LabBuilder.Issue.isolatedNodes [""], LabBuilder.Issue.noName "x",
       LabBuilder.Issue.noImage ""] := by
  decide

/-- Filtering an optionally emitted singleton whose element fails the
predicate yields nothing. -/
theorem filter_opt_singleton {α : Type} (b : Bool) (i : α) (pr : α → Bool) (h : pr i = false) :
    ((if b then ([] : List α) else [i])).filter pr = [] := by
  cases b <;> simp [h]

/-- Filtering an optionally emitted singleton whose element satisfies
the predicate changes nothing. -/
theorem filter_opt_singleton_keep {α : Type} (b : Bool) (i : α) (pr : α → Bool)
    (h : pr i = true) :
    ((if b then ([] : List α) else [i])).filter pr = if b then [] else [i] := by
  cases b <;> simp [h]

/-- Filtering away issues produced through a positive guard, when the
produced constructor fails the predicate. -/
theorem filter_filterMap_guard_some {α β : Type} (c : α → Bool) (g : α → β) (pr : β → Bool)
    (hg : ∀ a, pr (g a) = false) (l : List α) :
    (l.filterMap (fun a => if c a then some (g a) else none)).filter pr = [] := by
  rw [filterMap_guard_eq_map_filter c g, List.filter_eq_nil_iff]
  intro i hi
  obtain ⟨p, _, rfl⟩ := List.mem_map.mp hi
  simp [hg p]

/-- Filtering away issues produced through a negative guard, when the
produced constructor fails the predicate. -/
theorem filter_filterMap_guard_none {α β : Type} (c : α → Bool) (g : α → β) (pr : β → Bool)
    (hg : ∀ a, pr (g a) = false) (l : List α) :
    (l.filterMap (fun a => if c a then none else some (g a))).filter pr = [] := by
  rw [List.filter_eq_nil_iff]
  intro i hi
  obtain ⟨a, _, hf⟩ := List.mem_filterMap.mp hi
  by_cases hc : c a = true
  · rw [if_pos hc] at hf
    cases hf
  · rw [if_neg hc] at hf
    cases hf
    simp [hg a]

/-- Keeping issues produced through a positive guard, when the produced
constructor satisfies the predicate. -/
theorem filter_filterMap_guard_some_keep {α β : Type} (c : α → Bool) (g : α → β)
    (pr : β → Bool) (hg : ∀ a, pr (g a) = true) (l : List α) :
    (l.filterMap (fun a => if c a then some (g a) else none)).filter pr =
      (l.filter c).map g := by
  rw [filterMap_guard_eq_map_filter c g, List.filter_eq_self]
  intro i hi
  obtain ⟨p, _, rfl⟩ := List.mem_map.mp hi
  exact hg p

/-- The name issues of the LabBuilder per-node check, extracted. -/
theorem lb_flatten_filter_noName (l : List (String × Node)) :
    ((l.map (fun p =>
      (if p.2.name == "" || jsTrim p.2.name == "" then [LabBuilder.Issue.noName p.1] else []) ++
      (if p.2.image == "" || jsTrim p.2.image == "" then [LabBuilder.Issue.noImage p.2.name]
       else []))).flatten).filter LabBuilder.Issue.isNoName =
    (l.filter (fun p => p.2.name == "" || jsTrim p.2.name == "")).map
      (fun p => LabBuilder.Issue.noName p.1) := by
  induction l with
  | nil => rfl
  | cons p rest ih =>
    simp only [List.map_cons, List.flatten_cons, List.filter_append]
    rw [ih]
    cases h1 : (p.2.name == "" || jsTrim p.2.name == "") <;>
    cases h2 : (p.2.image == "" || jsTrim p.2.image == "") <;>
      simp [List.filter_cons, h1, h2, LabBuilder.Issue.isNoName]

/-- The image issues of the LabBuilder per-node check, extracted. -/
theorem lb_flatten_filter_noImage (l : List (String × Node)) :
    ((l.map (fun p =>
      (if p.2.name == "" || jsTrim p.2.name == "" then [LabBuilder.Issue.noName p.1] else []) ++
      (if p.2.image == "" || jsTrim p.2.image == "" then [LabBuilder.Issue.noImage p.2.name]
       else []))).flatten).filter LabBuilder.Issue.isNoImage =
    (l.filter (fun p => p.2.image == "" || jsTrim p.2.image == "")).map
      (fun p => LabBuilder.Issue.noImage p.2.name) := by
  induction l with
  | nil => rfl
  | cons p rest ih =>
    simp only [List.map_cons, List.flatten_cons, List.filter_append]
    rw [ih]
    cases h1 : (p.2.name == "" || jsTrim p.2.name == "") <;>
    cases h2 : (p.2.image == "" || jsTrim p.2.image == "") <;>
      simp [List.filter_cons, h1, h2, LabBuilder.Issue.isNoImage]

/-- C6 amended: the exporter validator emits exactly one combined
missing-required-fields issue per node whose name, image or kind is
empty (so a node missing several fields still yields one issue, and an
empty kind alone yields one); the LabBuilder validator emits one issue
per blank name and one per blank image and never checks the kind. -/
theorem missing_field_issue_structure (t : Topology) :
    (TopologyExporter.validateTopology t).filter TopologyExporter.Issue.isMissingFields =
      (t.nodes.filter (fun p => p.2.name == "" || p.2.image == "" || p.2.kind == "")).map
        (fun p => TopologyExporter.Issue.missingFields p.2.id) ∧
    (LabBuilder.validateTopology t).filter LabBuilder.Issue.isNoName =
      (t.nodes.filter (fun p => p.2.name == "" || jsTrim p.2.name == "")).map
        (fun p => LabBuilder.Issue.noName p.1) ∧
    (LabBuilder.validateTopology t).filter LabBuilder.Issue.isNoImage =
      (t.nodes.filter (fun p => p.2.image == "" || jsTrim p.2.image == "")).map
        (fun p => LabBuilder.Issue.noImage p.2.name) := by
  refine ⟨?_, ?_, ?_⟩
  · show ((_ ++ _ ++ _ : List TopologyExporter.Issue)).filter _ = _
    rw [List.filter_append, List.filter_append,
      filter_opt_singleton _ _ _ rfl,
      filter_filterMap_guard_some_keep _ _ _ (fun p => rfl),
      filter_filterMap_guard_none _ _ _ (fun q => rfl),
      List.nil_append, List.append_nil]
  · show ((_ ++ _ ++ _ : List LabBuilder.Issue)).filter _ = _
    rw [List.filter_append, List.filter_append,
      filter_opt_singleton _ _ _ rfl,
      filter_opt_singleton _ _ _ rfl,
      lb_flatten_filter_noName,
      List.nil_append, List.nil_append]
  · show ((_ ++ _ ++ _ : List LabBuilder.Issue)).filter _ = _
    rw [List.filter_append, List.filter_append,
      filter_opt_singleton _ _ _ rfl,
      filter_opt_singleton _ _ _ rfl,
      lb_flatten_filter_noImage,
      List.nil_append, List.nil_append]

/-- C7: whenever some display name is shared by two or more nodes, the
exporter validator emits exactly one duplicate-names issue, and the name
list inside that issue contains every duplicated value exactly once and
nothing else. -/
theorem validate_reports_duplicates_once (t : Topology)
    (hdup : ∃ name, 2 ≤ (nodeNames t).count name) :
    ∃ ds, (TopologyExporter.validateTopology t).filter TopologyExporter.Issue.isDupNames =
        [TopologyExporter.Issue.dupNames ds] ∧
      ds.Nodup ∧ (∀ a, a ∈ ds ↔ 2 ≤ (nodeNames t).count a) := by
  obtain ⟨nm, hnm⟩ := hdup
  have hmem : nm ∈ jsDuplicates (nodeNames t) := (mem_jsDuplicates nm _).mpr hnm
  have hne : (jsDuplicates (nodeNames t)).isEmpty = false := by
    cases hJ : jsDuplicates (nodeNames t) with
    | nil => rw [hJ] at hmem; cases hmem
    | cons y ys => simp
  refine ⟨jsSetDedup (jsDuplicates (nodeNames t)), ?_, nodup_jsSetDedup _, fun a => by
    rw [mem_jsSetDedup, mem_jsDuplicates]⟩
  show ((_ ++ _ ++ _ : List TopologyExporter.Issue)).filter _ = _
  rw [List.filter_append, List.filter_append,
    filter_opt_singleton_keep _ _ _ rfl,
    filter_filterMap_guard_some _ _ _ (fun p => rfl),
    filter_filterMap_guard_none _ _ _ (fun q => rfl),
    List.append_nil, List.append_nil, hne]
  rfl

/-- Witness for C7: two nodes both named r1 produce exactly the one
issue naming r1 once. -/
theorem validate_reports_duplicates_once_witness :
    (∃ name, 2 ≤ (nodeNames r1DupTopo).count name) ∧
    TopologyExporter.validateTopology r1DupTopo =
      [TopologyExporter.Issue.dupNames ["r1"]] ∧
    (∃ ds, (TopologyExporter.validateTopology r1DupTopo).filter
        TopologyExporter.Issue.isDupNames = [TopologyExporter.Issue.dupNames ds] ∧
      ds.Nodup ∧ (∀ a, a ∈ ds ↔ 2 ≤ (nodeNames r1DupTopo).count a)) :=
  ⟨⟨"r1", by decide⟩, by decide,
    validate_reports_duplicates_once r1DupTopo ⟨"r1", by decide⟩⟩

/-- Looking up a renamed key in the renamed node map finds the renamed
entry of the original key, for an injective renaming. -/
theorem lookupNode_map_rename (f : String → String) (hf : Function.Injective f)
    (nodes : List (String × Node)) (k : String) :
    lookupNode (nodes.map (fun p => (f p.1, renameNode f p.2))) (f k) =
      (lookupNode nodes k).map (renameNode f) := by
  induction nodes with
  | nil => rfl
  | cons p rest ih =>
    by_cases hp : p.1 = k
    · simp [lookupNode, List.find?_cons, hp]
    · have hfp : ¬f p.1 = f k := fun hh => hp (hf hh)
      simpa [lookupNode, List.find?_cons, hp, hfp] using ih

/-- The emitted node mapping ignores node ids entirely. -/
theorem nodesYaml_rename (f : String → String) (t : Topology) :
    TopologyExporter.nodesYaml (renameTopology f t) = TopologyExporter.nodesYaml t := by
  show ((t.nodes.map (fun p => (f p.1, renameNode f p.2))).foldl _ []) = _
  rw [List.foldl_map]
  rfl

/-- The emitted link list is unchanged by an injective renaming of the
node ids: the endpoints resolve to the same display names. -/
theorem linksYaml_rename (f : String → String) (hf : Function.Injective f) (t : Topology) :
    TopologyExporter.linksYaml (renameTopology f t) = TopologyExporter.linksYaml t := by
  show (t.links.map (renameLink f)).filterMap _ = t.links.filterMap _
  rw [List.filterMap_map]
  congr 1
  funext l
  show (match lookupNode (t.nodes.map (fun p => (f p.1, renameNode f p.2)))
          (f l.endpoints.1.node),
        lookupNode (t.nodes.map (fun p => (f p.1, renameNode f p.2)))
          (f l.endpoints.2.node) with
    | some n1, some n2 =>
      some ({ endpoints := [n1.name ++ ":" ++ l.endpoints.1.interface,
        n2.name ++ ":" ++ l.endpoints.2.interface] } : TopologyExporter.LinkYaml)
    | _, _ => none) = _
  rw [lookupNode_map_rename f hf, lookupNode_map_rename f hf]
  cases lookupNode t.nodes l.endpoints.1.node <;>
    cases lookupNode t.nodes l.endpoints.2.node <;> rfl

open TopologyExporter in
/-- C8: on an export-clean topology the compiler emits every stored
link, in stored order, as the ordered pair of nodeName:interfaceName
strings obtained by resolving each endpoint node id to its display name
at compile time; and the compiled document — including its rendered
text — is invariant under any injective renaming of the node ids, which
formalises that node ids never reach the output, only resolved display
names do. -/
theorem compile_resolves_links_by_name (t : Topology) (cp : String) (im : Bool)
    (mn : String) (f : String → String)
    (hclean : TopologyExporter.validateTopology t = [])
    (hf : Function.Injective f) :
    (generateContainerlabYAML t cp im mn).links =
      t.links.map (fun l =>
        ({ endpoints := [((lookupNode t.nodes l.endpoints.1.node).getD
              LabBuilder.undefinedNode).name ++ ":" ++ l.endpoints.1.interface,
            ((lookupNode t.nodes l.endpoints.2.node).getD
              LabBuilder.undefinedNode).name ++ ":" ++ l.endpoints.2.interface] }
          : LinkYaml)) ∧
    generateContainerlabYAML (renameTopology f t) cp im mn =
      generateContainerlabYAML t cp im mn ∧
    exportText (renameTopology f t) cp im mn = exportText t cp im mn := by
  have hres : ∀ l ∈ t.links,
      (lookupNode t.nodes l.endpoints.1.node).isSome = true ∧
      (lookupNode t.nodes l.endpoints.2.node).isSome = true := by
    intro l hl
    by_contra hcon
    obtain ⟨i, hi⟩ := exists_mem_enumFrom l t.links 0 hl
    have hcond : ((lookupNode t.nodes l.endpoints.1.node).isSome &&
        (lookupNode t.nodes l.endpoints.2.node).isSome) = false := by
      cases hA : (lookupNode t.nodes l.endpoints.1.node).isSome <;>
      cases hB : (lookupNode t.nodes l.endpoints.2.node).isSome <;>
        simp_all
    have hmem : Issue.danglingLink (i + 1) ∈ TopologyExporter.validateTopology t := by
      show _ ∈ (_ ++ _ ++ _ : List Issue)
      refine List.mem_append.mpr (Or.inr (List.mem_filterMap.mpr ⟨(i, l), hi, ?_⟩))
      have hnot : ¬(((lookupNode t.nodes ((i, l).2).endpoints.1.node).isSome &&
          (lookupNode t.nodes ((i, l).2).endpoints.2.node).isSome) = true) := by
        simp [hcond]
      rw [if_neg hnot]
    rw [hclean] at hmem
    cases hmem
  have h2 : generateContainerlabYAML (renameTopology f t) cp im mn =
      generateContainerlabYAML t cp im mn := by
    unfold TopologyExporter.generateContainerlabYAML
    rw [nodesYaml_rename f t, linksYaml_rename f hf t]
    rfl
  refine ⟨?_, h2, ?_⟩
  · show TopologyExporter.linksYaml t = _
    apply filterMap_congr_some
    intro l hl
    obtain ⟨hA, hB⟩ := hres l hl
    obtain ⟨n1, hn1⟩ := Option.isSome_iff_exists.mp hA
    obtain ⟨n2, hn2⟩ := Option.isSome_iff_exists.mp hB
    rw [hn1, hn2]
    rfl
  · unfold TopologyExporter.exportText
    rw [h2]

open TopologyExporter in
/-- Witness for C8 at the two-node topology, empty prefix, management
section on, and the identity renaming. -/
theorem compile_resolves_links_by_name_witness :
    TopologyExporter.validateTopology twoNodeTopo = [] ∧
    (generateContainerlabYAML twoNodeTopo "" true "mgmt").links =
      twoNodeTopo.links.map (fun l =>
        ({ endpoints := [((lookupNode twoNodeTopo.nodes l.endpoints.1.node).getD
              LabBuilder.undefinedNode).name ++ ":" ++ l.endpoints.1.interface,
            ((lookupNode twoNodeTopo.nodes l.endpoints.2.node).getD
              LabBuilder.undefinedNode).name ++ ":" ++ l.endpoints.2.interface] }
          : LinkYaml)) ∧
    generateContainerlabYAML (renameTopology (fun s => s) twoNodeTopo) "" true "mgmt" =
      generateContainerlabYAML twoNodeTopo "" true "mgmt" ∧
    exportText (renameTopology (fun s => s) twoNodeTopo) "" true "mgmt" =
      exportText twoNodeTopo "" true "mgmt" :=
  ⟨by decide,
    (compile_resolves_links_by_name twoNodeTopo "" true "mgmt" (fun s => s)
      (by decide) (fun a b h => h)).1,
    (compile_resolves_links_by_name twoNodeTopo "" true "mgmt" (fun s => s)
      (by decide) (fun a b h => h)).2.1,
    (compile_resolves_links_by_name twoNodeTopo "" true "mgmt" (fun s => s)
      (by decide) (fun a b h => h)).2.2⟩

open TopologyExporter in
/-- C10: the compiler is total on every topology, clean or not, and its
emitted link list is exactly the stored links whose two endpoints both
resolve, in stored order, each resolved to display names; a link with a
dangling endpoint is silently omitted rather than failing or producing a
partial entry. -/
theorem compile_omits_dangling_links (t : Topology) (cp : String) (im : Bool)
    (mn : String) :
    (generateContainerlabYAML t cp im mn).links =
      (t.links.filter (fun l =>
        (lookupNode t.nodes l.endpoints.1.node).isSome &&
        (lookupNode t.nodes l.endpoints.2.node).isSome)).map
        (fun l =>
          ({ endpoints := [((lookupNode t.nodes l.endpoints.1.node).getD
                LabBuilder.undefinedNode).name ++ ":" ++ l.endpoints.1.interface,
              ((lookupNode t.nodes l.endpoints.2.node).getD
                LabBuilder.undefinedNode).name ++ ":" ++ l.endpoints.2.interface] }
            : LinkYaml)) := by
  show TopologyExporter.linksYaml t = _
  apply filterMap_eq_filter_map_of
  · intro l hc
    rw [Bool.and_eq_true] at hc
    obtain ⟨hA, hB⟩ := hc
    obtain ⟨n1, hn1⟩ := Option.isSome_iff_exists.mp hA
    obtain ⟨n2, hn2⟩ := Option.isSome_iff_exists.mp hB
    rw [hn1, hn2]
    rfl
  · intro l hc
    cases hA : lookupNode t.nodes l.endpoints.1.node <;>
    cases hB : lookupNode t.nodes l.endpoints.2.node <;>
      first
        | rfl
        | (exfalso; rw [hA, hB] at hc; simp at hc)

open TopologyCanvas in
/-- C9 counterexample: along the legal event sequence shift-mouse-down
on node a, mouse move over the canvas, mouse up, mouse down on empty
canvas, the pointer-down that starts panning is not rejected even though
the linking gesture is still in progress (the mouse-up kept it alive
because a preview point was set), so two gesture states are active at
once in a reachable state. -/
theorem panning_while_linking_reachable :
    (run initialCanvasState overlapTrace).isPanning = true ∧
    (run initialCanvasState overlapTrace).linking = some ⟨"a", "eth0"⟩ ∧
    gesturesActive (run initialCanvasState overlapTrace) = 2 := by
  decide

set_option maxHeartbeats 1000000 in
/-- C9 amended: each single handler invocation starts at most one new
gesture — pointer-down on empty canvas can start only panning, on a node
only dragging or linking according to the modifier — but gestures are
not mutually exclusive across events: a pointer-down while another
gesture is in progress is not rejected, so panning can begin while a
link gesture is active (see the reachable counterexample). -/
theorem step_starts_at_most_one_gesture (s : TopologyCanvas.CanvasState)
    (e : TopologyCanvas.CanvasEvent) :
    TopologyCanvas.gesturesStarted s (TopologyCanvas.step s e) ≤ 1 := by
  obtain ⟨pan, ps, drag, lk, lp, cm, sel, off, z⟩ := s
  rcases e with ⟨nodeId, button, shiftKey, cx, cy⟩ | nodeId | ⟨button, tin, cx, cy⟩ |
    ⟨cx, cy, dex, rl, rt⟩ | _ | ⟨cx, cy, dy, rl, rt, rw2, rh⟩ | key | ⟨action, nodeId⟩
  all_goals try cases action
  all_goals
    cases pan <;> cases drag <;> cases lk <;>
      simp only [TopologyCanvas.step, TopologyCanvas.gesturesStarted] <;>
      (try split_ifs) <;>
      simp_all

end LabDabbler

open LabDabbler LabDabbler.TopologyCanvas

/-- C1: the wheel-zoom step does not preserve the model point under the
anchor. Starting from pan offset (0,0) and zoom 1 (inside the clamped
range), with the canvas rectangle at the origin and 100 wide and tall, a
wheel-up at client position (0,0) moves the model point under the anchor
from (0,0) to (-50/11, -50/11): the code shifts the offset by the anchor
distance from the canvas center scaled by (1 - delta), which keeps the
anchor model point fixed only when the offset equals the center, while
the inline comment of the source (zoom towards cursor position) and the
specification both ask for the anchor model point to be preserved. -/
theorem handleCanvasWheel_moves_anchor_model_point :
    (1/10 : ℚ) ≤ (Viewport.mk ⟨0, 0⟩ 1).zoomLevel ∧
    (Viewport.mk ⟨0, 0⟩ 1).zoomLevel ≤ 3 ∧
    (1/10 : ℚ) ≤ (handleCanvasWheel ⟨⟨0, 0⟩, 1⟩ 0 0 100 100 0 0 (-1)).zoomLevel ∧
    (handleCanvasWheel ⟨⟨0, 0⟩, 1⟩ 0 0 100 100 0 0 (-1)).zoomLevel ≤ 3 ∧
    getCanvasCoordinates 0 0 (Viewport.mk ⟨0, 0⟩ 1).canvasOffset
      (Viewport.mk ⟨0, 0⟩ 1).zoomLevel 0 0 = ⟨0, 0⟩ ∧
    getCanvasCoordinates 0 0 (handleCanvasWheel ⟨⟨0, 0⟩, 1⟩ 0 0 100 100 0 0 (-1)).canvasOffset
      (handleCanvasWheel ⟨⟨0, 0⟩, 1⟩ 0 0 100 100 0 0 (-1)).zoomLevel 0 0 ≠
    getCanvasCoordinates 0 0 (Viewport.mk ⟨0, 0⟩ 1).canvasOffset
      (Viewport.mk ⟨0, 0⟩ 1).zoomLevel 0 0 := by
  unfold handleCanvasWheel getCanvasCoordinates
  norm_num [Pt.mk.injEq, max_def, min_def]

/-- C2: the two coordinate transforms are exact inverses: for every model
point, every pan offset, every nonzero zoom (in particular every zoom in
the clamped range [0.1, 3]) and every canvas rectangle position, mapping
the model point to its canvas-local screen position with
getScreenCoordinates and reading back the corresponding client position
with getCanvasCoordinates (client position = rectangle corner plus
canvas-local position) returns the original model point. Over the
rationals the round trip is exact, so it holds within epsilon for floats. -/
theorem getCanvasCoordinates_getScreenCoordinates (rectLeft rectTop : ℚ)
    (canvasOffset : Pt) (zoomLevel : ℚ) (px py : ℚ) (hz : zoomLevel ≠ 0) :
    getCanvasCoordinates rectLeft rectTop canvasOffset zoomLevel
      (rectLeft + (getScreenCoordinates canvasOffset zoomLevel px py).x)
      (rectTop + (getScreenCoordinates canvasOffset zoomLevel px py).y) = ⟨px, py⟩ := by
  unfold getCanvasCoordinates getScreenCoordinates
  have hx : rectLeft + (px * zoomLevel + canvasOffset.x) - rectLeft - canvasOffset.x
      = px * zoomLevel := by ring
  have hy : rectTop + (py * zoomLevel + canvasOffset.y) - rectTop - canvasOffset.y
      = py * zoomLevel := by ring
  simp only [hx, hy]
  congr 1 <;> exact mul_div_cancel_right₀ _ hz

/-- Witness for C2 at a concrete input: rectangle corner (7, -3), pan
offset (5, 4), zoom 2, model point (11, -13). -/
theorem getCanvasCoordinates_getScreenCoordinates_witness :
    (2 : ℚ) ≠ 0 ∧
    getCanvasCoordinates 7 (-3) ⟨5, 4⟩ 2
      (7 + (getScreenCoordinates ⟨5, 4⟩ 2 11 (-13)).x)
      (-3 + (getScreenCoordinates ⟨5, 4⟩ 2 11 (-13)).y) = ⟨11, -13⟩ :=
  ⟨by norm_num, getCanvasCoordinates_getScreenCoordinates 7 (-3) ⟨5, 4⟩ 2 11 (-13) (by norm_num)⟩
